import Mathlib

/-!
Shallow embedding of the rac robot-arm controller (Rust crate under
src/controller).  Rust `f64` is modelled by the type `F`: an exact real
number, `+inf`, `-inf` or `NaN`.  Rounding is not modelled (finite values
are exact reals) and the negative zero is identified with the positive
zero; apart from that the special values follow IEEE-754 and the Rust
standard library: division by zero yields a signed infinity (or NaN for
0/0), `atan` of an infinity yields plus or minus pi/2, `acos` outside
[-1,1] yields NaN, `f64::signum` yields 1.0 on zero, and every operation
propagates NaN.  Comparisons are IEEE: every comparison with NaN is false.
-/

open Real

noncomputable section

open Classical

/-- Model of a Rust `f64` value: a finite (exact) real, an infinity or NaN. -/
inductive F where
  | fin : ℝ → F
  | pinf : F
  | ninf : F
  | nan : F

/-- Rust `f64::is_nan`. -/
def F.isNan : F → Bool
  | .nan => true
  | .fin _ => false
  | .pinf => false
  | .ninf => false

/-- The value is a finite real (neither infinite nor NaN). -/
def F.isFinite : F → Bool
  | .fin _ => true
  | .pinf => false
  | .ninf => false
  | .nan => false

/-- IEEE addition on the model. -/
def F.add : F → F → F
  | .fin a, .fin b => .fin (a + b)
  | .fin _, .pinf => .pinf
  | .fin _, .ninf => .ninf
  | .fin _, .nan => .nan
  | .pinf, .fin _ => .pinf
  | .pinf, .pinf => .pinf
  | .pinf, .ninf => .nan
  | .pinf, .nan => .nan
  | .ninf, .fin _ => .ninf
  | .ninf, .pinf => .nan
  | .ninf, .ninf => .ninf
  | .ninf, .nan => .nan
  | .nan, _ => .nan

/-- IEEE negation on the model. -/
def F.neg : F → F
  | .fin a => .fin (-a)
  | .pinf => .ninf
  | .ninf => .pinf
  | .nan => .nan

/-- IEEE subtraction on the model. -/
def F.sub (a b : F) : F := a.add b.neg

/-- IEEE multiplication on the model (`0 * inf = NaN`). -/
def F.mul : F → F → F
  | .fin a, .fin b => .fin (a * b)
  | .fin a, .pinf => if 0 < a then .pinf else if a < 0 then .ninf else .nan
  | .fin a, .ninf => if 0 < a then .ninf else if a < 0 then .pinf else .nan
  | .fin _, .nan => .nan
  | .pinf, .fin b => if 0 < b then .pinf else if b < 0 then .ninf else .nan
  | .pinf, .pinf => .pinf
  | .pinf, .ninf => .ninf
  | .pinf, .nan => .nan
  | .ninf, .fin b => if 0 < b then .ninf else if b < 0 then .pinf else .nan
  | .ninf, .pinf => .ninf
  | .ninf, .ninf => .pinf
  | .ninf, .nan => .nan
  | .nan, _ => .nan

/-- IEEE division on the model.  A zero divisor is the positive zero, so
`a / 0` is `+inf` for positive `a`, `-inf` for negative `a`, NaN for `0/0`. -/
def F.div : F → F → F
  | .fin a, .fin b =>
      if b = 0 then (if 0 < a then .pinf else if a < 0 then .ninf else .nan)
      else .fin (a / b)
  | .fin _, .pinf => .fin 0
  | .fin _, .ninf => .fin 0
  | .fin _, .nan => .nan
  | .pinf, .fin b => if b < 0 then .ninf else .pinf
  | .pinf, .pinf => .nan
  | .pinf, .ninf => .nan
  | .pinf, .nan => .nan
  | .ninf, .fin b => if b < 0 then .pinf else .ninf
  | .ninf, .pinf => .nan
  | .ninf, .ninf => .nan
  | .ninf, .nan => .nan
  | .nan, _ => .nan

/-- Rust `f64::powi(2)`, which is exact squaring. -/
def F.pow2 (a : F) : F := a.mul a

/-- Rust `f64::sqrt`: NaN on negative input, `+inf` on `+inf`. -/
def F.sqrt : F → F
  | .fin a => if a < 0 then .nan else .fin (Real.sqrt a)
  | .pinf => .pinf
  | .ninf => .nan
  | .nan => .nan

/-- Rust `f64::atan`: total, `atan (+inf) = pi/2`, `atan (-inf) = -pi/2`. -/
def F.atan : F → F
  | .fin a => .fin (Real.arctan a)
  | .pinf => .fin (π / 2)
  | .ninf => .fin (-(π / 2))
  | .nan => .nan

/-- Rust `f64::acos`: NaN outside `[-1, 1]` and on non-finite input. -/
def F.acos : F → F
  | .fin a => if a < -1 ∨ 1 < a then .nan else .fin (Real.arccos a)
  | .pinf => .nan
  | .ninf => .nan
  | .nan => .nan

/-- Rust `f64::sin`. -/
def F.sin : F → F
  | .fin a => .fin (Real.sin a)
  | .pinf => .nan
  | .ninf => .nan
  | .nan => .nan

/-- Rust `f64::cos`. -/
def F.cos : F → F
  | .fin a => .fin (Real.cos a)
  | .pinf => .nan
  | .ninf => .nan
  | .nan => .nan

/-- Rust `f64::to_degrees`: multiplication by `180 / pi`. -/
def F.toDegrees (a : F) : F := a.mul (.fin (180 / π))

/-- Rust `f64::to_radians`: multiplication by `pi / 180`. -/
def F.toRadians (a : F) : F := a.mul (.fin (π / 180))

/-- Rust `a < b` on `f64`: false whenever either side is NaN. -/
def F.Lt : F → F → Prop
  | .fin a, .fin b => a < b
  | .fin _, .pinf => True
  | .fin _, .ninf => False
  | .fin _, .nan => False
  | .pinf, _ => False
  | .ninf, .fin _ => True
  | .ninf, .pinf => True
  | .ninf, .ninf => False
  | .ninf, .nan => False
  | .nan, _ => False

/-- Rust `a <= b` on `f64`: false whenever either side is NaN. -/
def F.Le : F → F → Prop
  | .fin a, .fin b => a ≤ b
  | .fin _, .pinf => True
  | .fin _, .ninf => False
  | .fin _, .nan => False
  | .pinf, .pinf => True
  | .pinf, .fin _ => False
  | .pinf, .ninf => False
  | .pinf, .nan => False
  | .ninf, .nan => False
  | .ninf, _ => True
  | .nan, _ => False

/-- Rust `x.signum() as i8`.  `f64::signum` returns `1.0` for positive
values, positive zero and `+inf`, `-1.0` for negative values and `-inf`,
and NaN for NaN; the `as i8` cast sends NaN to 0.  (The negative zero is
not modelled, so a zero always has signum 1.) -/
def F.signumCast : F → ℤ
  | .fin a => if a < 0 then -1 else 1
  | .pinf => 1
  | .ninf => -1
  | .nan => 0

/-- Rust `x as u16` on an `f64`: truncate toward zero with saturation at
`[0, 65535]`; NaN casts to 0. -/
def F.castU16 : F → ℕ
  | .fin a => if a < 0 then 0 else min 65535 (Int.toNat ⌊a⌋)
  | .pinf => 65535
  | .ninf => 0
  | .nan => 0

/-! ### Vector and spherical-coordinate types (src/controller/src/kinematics/position.rs) -/

/-- `CordinateVec` from position.rs: a 3d position. -/
structure CordinateVec where
  x : F
  y : F
  z : F

/-- `SphereVec` from position.rs: a position in spherical coordinates. -/
structure SphereVec where
  azimuth : F
  polar : F
  distance : F
  flat_distance : F

/-- `CordinateVec::new`. -/
def CordinateVec.new (x y z : F) : CordinateVec := ⟨x, y, z⟩

/-- `impl Add for CordinateVec`: componentwise addition. -/
def CordinateVec.add (a b : CordinateVec) : CordinateVec :=
  ⟨a.x.add b.x, a.y.add b.y, a.z.add b.z⟩

/-- `impl Sub for CordinateVec`: componentwise subtraction. -/
def CordinateVec.sub (a b : CordinateVec) : CordinateVec :=
  ⟨a.x.sub b.x, a.y.sub b.y, a.z.sub b.z⟩

/-- `impl Mul<f64> for CordinateVec`: scaling every component. -/
def CordinateVec.smul (a : CordinateVec) (k : F) : CordinateVec :=
  ⟨a.x.mul k, a.y.mul k, a.z.mul k⟩

/-- `impl Mul<CordinateVec> for CordinateVec`: componentwise product. -/
def CordinateVec.cmul (a b : CordinateVec) : CordinateVec :=
  ⟨a.x.mul b.x, a.y.mul b.y, a.z.mul b.z⟩

/-- `CordinateVec::f_dst`: `sqrt(x^2 + y^2)`. -/
def CordinateVec.f_dst (v : CordinateVec) : F :=
  ((v.x.pow2).add (v.y.pow2)).sqrt

/-- `CordinateVec::dst`: `sqrt(x^2 + y^2 + z^2)`. -/
def CordinateVec.dst (v : CordinateVec) : F :=
  (((v.x.pow2).add (v.y.pow2)).add (v.z.pow2)).sqrt

/-- `CordinateVec::azimuth`: `match x.signum() as i8 { 1 => atan(y/x),
-1 => atan(y/x) + PI, _ => 0 }`.  (The `_` arm is reached only for NaN `x`,
since `f64::signum` maps zero to 1.) -/
def CordinateVec.azimuth (v : CordinateVec) : F :=
  if v.x.signumCast = 1 then (v.y.div v.x).atan
  else if v.x.signumCast = -1 then ((v.y.div v.x).atan).add (.fin π)
  else .fin 0

/-- `CordinateVec::polar`: `match z.signum() as i8 { 1 => atan(f_dst/z),
-1 => atan(f_dst/z) + PI, _ => 0 }`. -/
def CordinateVec.polar (v : CordinateVec) : F :=
  if v.z.signumCast = 1 then ((v.f_dst).div v.z).atan
  else if v.z.signumCast = -1 then (((v.f_dst).div v.z).atan).add (.fin π)
  else .fin 0

/-- `CordinateVec::to_sphere`. -/
def CordinateVec.to_sphere (v : CordinateVec) : SphereVec :=
  ⟨v.azimuth, v.polar, v.dst, v.f_dst⟩

/-- `SphereVec::new`: caches `flat_distance = dst * polar.sin()`. -/
def SphereVec.new (azimuth polar dst : F) : SphereVec :=
  ⟨azimuth, polar, dst, dst.mul polar.sin⟩

/-- `SphereVec::update_dst`: sets the distance and recomputes
`flat_distance = dst * polar.sin()` from the cached polar angle. -/
def SphereVec.update_dst (s : SphereVec) (dst : F) : SphereVec :=
  { s with distance := dst, flat_distance := dst.mul s.polar.sin }

/-- `SphereVec::to_position`: `x = flat_distance * cos(azimuth)`,
`y = flat_distance * sin(azimuth)`, `z = distance * cos(polar)`. -/
def SphereVec.to_position (s : SphereVec) : CordinateVec :=
  ⟨s.flat_distance.mul s.azimuth.cos,
   s.flat_distance.mul s.azimuth.sin,
   s.distance.mul s.polar.cos⟩

/-! ### Triangle helpers (src/controller/src/kinematics/mod.rs) -/

/-- `triangle::a_from_lengths`: law of cosines,
`acos((-(c*c) + a*a + b*b) / (2*a*b))`. -/
def a_from_lengths (a b c : F) : F :=
  ((((c.mul c).neg.add (a.mul a)).add (b.mul b)).div ((F.fin 2).mul a |>.mul b)).acos

/-- `triangle::length_from_two_lengths_and_angle`:
`sqrt((a - cos(angle)*a)^2 + (sin(angle)*b)^2)`. -/
def length_from_two_lengths_and_angle (angle a b : F) : F :=
  let x := a.sub (angle.cos.mul a)
  let y := angle.sin.mul b
  ((x.mul x).add (y.mul y)).sqrt

/-! ### Inverse kinematics (src/controller/src/kinematics/position.rs).
The three angle computations of `CordinateVec::inverse_kinematics` are
named individually so that the error condition can be stated about them;
`inverse_kinematics` assembles them exactly as the Rust function does. -/

/-- The `base` angle of `CordinateVec::inverse_kinematics`:
`spos.azimuth.to_degrees() + 90`. -/
def ikBase (v : CordinateVec) : F :=
  (v.to_sphere.azimuth.toDegrees).add (.fin 90)

/-- The `elbow` angle of `CordinateVec::inverse_kinematics`:
`a_from_lengths(upper_arm, lower_arm, spos.distance).to_degrees()`. -/
def ikElbow (v : CordinateVec) (upper_arm lower_arm : F) : F :=
  (a_from_lengths upper_arm lower_arm v.to_sphere.distance).toDegrees

/-- The `shoulder` angle of `CordinateVec::inverse_kinematics`:
`a = atan(flat_distance / z)`, `b = a_from_lengths(distance, lower_arm,
upper_arm)`, reflected to `PI - a - b` when `a + b > PI/2`, in degrees. -/
def ikShoulder (v : CordinateVec) (upper_arm lower_arm : F) : F :=
  let a := ((v.to_sphere.flat_distance).div v.z).atan
  let b := a_from_lengths v.to_sphere.distance lower_arm upper_arm
  (if F.Lt (.fin (π / 2)) (a.add b) then ((F.fin π).sub a).sub b
   else a.add b).toDegrees

/-- `CordinateVec::inverse_kinematics`: fails iff any of the three
computed angles is NaN. -/
def CordinateVec.inverse_kinematics (v : CordinateVec)
    (upper_arm lower_arm : F) : Except Unit (F × F × F) :=
  let base := ikBase v
  let elbow := ikElbow v upper_arm lower_arm
  let shoulder := ikShoulder v upper_arm lower_arm
  if (shoulder.isNan || base.isNan || elbow.isNan) then .error ()
  else .ok (base, shoulder, elbow)

/-- Modelled from the spec's wording of the IK algorithm (spec section
4.2), kept separate for the refinement claim C6: base is the azimuth in
degrees plus 90, elbow is `angle_from_sides(upper_arm, lower_arm,
distance)` in degrees, and the shoulder is the sum, in degrees, of the
elevation angle `atan(flat_distance / z)` and
`angle_from_sides(distance, lower_arm, upper_arm)`, reflected to
`180 - sum` when the sum exceeds 90. -/
def ik_spec_angles (v : CordinateVec) (upper_arm lower_arm : F) : F × F × F :=
  let base := (v.to_sphere.azimuth.toDegrees).add (.fin 90)
  let elbow := (a_from_lengths upper_arm lower_arm v.to_sphere.distance).toDegrees
  let a := ((v.to_sphere.flat_distance).div v.z).atan.toDegrees
  let b := (a_from_lengths v.to_sphere.distance lower_arm upper_arm).toDegrees
  let shoulder :=
    if F.Lt (.fin 90) (a.add b) then (F.fin 180).sub (a.add b) else a.add b
  (base, shoulder, elbow)

/-! ### Joints and motion transfer (src/controller/src/kinematics/joints.rs) -/

/-- `DoubleLinkage`: the six geometric constants of the four-bar rig. -/
structure DoubleLinkage where
  connection_radial_offset : F
  connection_linear_offset : F
  controll_pivot_horizontal_offset : F
  controll_pivot_vertical_offset : F
  controller_pivot_rod_length : F
  connection_rod_length : F

/-- `DoubleLinkage::connection_offset`: `(atan(linear/radial),
sqrt(radial^2 + linear^2))`. -/
def DoubleLinkage.connection_offset (d : DoubleLinkage) : F × F :=
  ((d.connection_linear_offset.div d.connection_radial_offset).atan,
   ((d.connection_radial_offset.pow2).add (d.connection_linear_offset.pow2)).sqrt)

/-- `DoubleLinkage::controller_offset`: `(atan(vertical/horizontal),
sqrt(horizontal^2 + vertical^2))`. -/
def DoubleLinkage.controller_offset (d : DoubleLinkage) : F × F :=
  ((d.controll_pivot_vertical_offset.div d.controll_pivot_horizontal_offset).atan,
   ((d.controll_pivot_horizontal_offset.pow2).add (d.controll_pivot_vertical_offset.pow2)).sqrt)

/-- The `dyn Motion` trait objects of joints.rs as a sum of the four
implementations (DirectDrive, DirectDriveOffset, GearDrive, DoubleLinkage). -/
inductive Motion where
  | directDrive : Motion
  | directDriveOffset (offset : F) : Motion
  | gearDrive (gear_ratio : F) : Motion
  | doubleLinkage (d : DoubleLinkage) : Motion

/-- `Motion::get_pivot_angle` of each implementation.  DirectDrive is the
identity, DirectDriveOffset adds its offset, GearDrive multiplies by its
ratio, and DoubleLinkage performs the four-bar triangle solve of joints.rs. -/
def Motion.get_pivot_angle : Motion → F → F
  | .directDrive, target => target
  | .directDriveOffset offset, target => target.add offset
  | .gearDrive gear_ratio, target => target.mul gear_ratio
  | .doubleLinkage d, target =>
      let connection := d.connection_offset
      let controller := d.controller_offset
      let inner_target_angle :=
        (F.fin π).sub ((target.toRadians.add connection.1).add controller.1)
      let connection_to_controller :=
        length_from_two_lengths_and_angle inner_target_angle connection.2 controller.2
      let x := a_from_lengths connection_to_controller
        d.controller_pivot_rod_length d.connection_rod_length
      let y := a_from_lengths connection_to_controller controller.2 connection.2
      (((x.add y).sub controller.1)).toDegrees

/-- `Joint` from joints.rs. -/
structure Joint where
  angle : F
  min : F
  max : F
  motion : Motion

/-- `Joint::new`: starts at angle 0. -/
def Joint.new (min max : F) (motion : Motion) : Joint :=
  ⟨.fin 0, min, max, motion⟩

/-- `impl Default for Joint`: angle 0, range [0, 180], DirectDrive. -/
def Joint.default : Joint :=
  ⟨.fin 0, .fin 0, .fin 180, .directDrive⟩

/-! ### Servo conversion and message encoding (src/controller/src/robot/mod.rs,
src/controller/src/robot/arm.rs) -/

/-- `MAX_SERVO` (microseconds for the arduino). -/
def MAX_SERVO : ℕ := 2400

/-- `MIN_SERVO` (microseconds for the arduino). -/
def MIN_SERVO : ℕ := 250

/-- `Joint::into_servo` from robot/mod.rs:
`factor = (motion.get_pivot_angle(angle) - min) / max;
((MAX_SERVO - MIN_SERVO) as f64 * factor + min as f64) as u16`. -/
def Joint.into_servo (j : Joint) : ℕ :=
  let factor := ((j.motion.get_pivot_angle j.angle).sub j.min).div j.max
  (((F.fin ((MAX_SERVO - MIN_SERVO : ℕ) : ℝ)).mul factor).add j.min).castU16

/-- `Servos` from robot/mod.rs: the four 16-bit commands. -/
structure Servos where
  base : ℕ
  shoulder : ℕ
  elbow : ℕ
  claw : ℕ

/-- `Servos::to_message`: the unsafe transmute of the four u16 fields into
8 bytes, little-endian in field order, as pinned by the unit test
`servos_to_message`. -/
def Servos.to_message (s : Servos) : List ℕ :=
  [s.base % 256, s.base / 256 % 256,
   s.shoulder % 256, s.shoulder / 256 % 256,
   s.elbow % 256, s.elbow / 256 % 256,
   s.claw % 256, s.claw / 256 % 256]

/-- Decodes consecutive little-endian byte pairs back into 16-bit values
(specification helper for the message layout). -/
def decode16 : List ℕ → List ℕ
  | lo :: hi :: rest => (lo + 256 * hi) :: decode16 rest
  | _ => []

/-- `Arm` from robot/arm.rs: the four joints. -/
structure Arm where
  base : Joint
  shoulder : Joint
  elbow : Joint
  claw : Joint

/-- `impl Default for Arm`: four default joints. -/
def Arm.default : Arm :=
  ⟨Joint.default, Joint.default, Joint.default, Joint.default⟩

/-- `Arm::to_servos`: converts each joint with `into_servo`. -/
def Arm.to_servos (a : Arm) : Servos :=
  ⟨a.base.into_servo, a.shoulder.into_servo, a.elbow.into_servo, a.claw.into_servo⟩

/-! ### The older servo conversion of src/controller/src/robot.rs
(`impl Into<u16> for Angle`), kept for comparison: it divides by
`MAX_ANGLE` and adds `MIN_SERVO`. -/

/-- `MAX_ANGLE` from robot.rs. -/
def MAX_ANGLE : ℝ := 180.0

/-- `MIN_ANGLE` from robot.rs. -/
def MIN_ANGLE : ℝ := 0.0

/-- `impl Into<u16> for Angle` from robot.rs:
`factor = (angle - MIN_ANGLE) / MAX_ANGLE;
((MAX_SERVO - MIN_SERVO) as f64 * factor + MIN_SERVO as f64) as u16`. -/
def Angle.into_u16 (a : F) : ℕ :=
  (((F.fin ((MAX_SERVO - MIN_SERVO : ℕ) : ℝ)).mul
      ((a.sub (.fin MIN_ANGLE)).div (.fin MAX_ANGLE))).add
    (.fin (MIN_SERVO : ℕ))).castU16

/-! ### The Robot aggregate (src/controller/src/robot/mod.rs).  The serial
connection is an external collaborator and is not part of the model. -/

/-- `Robot` from robot/mod.rs (without the `connection` handle). -/
structure Robot where
  position : CordinateVec
  target_position : Option CordinateVec
  velocity : CordinateVec
  max_velocity : CordinateVec
  target_velocity : CordinateVec
  acceleration : F
  arm : Arm
  upper_arm : F
  lower_arm : F
  claw_open : Bool

/-- `Robot::update_position`: integrates `position += velocity * delta` and
clamps the distance from the origin to `upper_arm + lower_arm` when the
spherical distance reaches it. -/
def Robot.update_position (r : Robot) (delta : F) : Robot :=
  let position := r.position.add (r.velocity.smul delta)
  let sphere := position.to_sphere
  if F.Le (r.upper_arm.add r.lower_arm) sphere.distance then
    { r with position := (sphere.update_dst (r.upper_arm.add r.lower_arm)).to_position }
  else
    { r with position := position }

/-- `Robot::update_ik`: on success overwrites the base, shoulder and elbow
joint angles; on failure the Rust code only prints a warning (`warn`), so
the state is unchanged. -/
def Robot.update_ik (r : Robot) : Robot :=
  match r.position.inverse_kinematics r.upper_arm r.lower_arm with
  | .ok angles =>
      { r with arm :=
        { r.arm with
          base := { r.arm.base with angle := angles.1 },
          shoulder := { r.arm.shoulder with angle := angles.2.1 },
          elbow := { r.arm.elbow with angle := angles.2.2 } } }
  | .error () => r

/-! ### The Full movement mode (src/controller/src/robot/movement/full.rs) -/

/-- `Full` from movement/full.rs. -/
structure Full where
  position : CordinateVec
  velocity : CordinateVec
  target_velocity : CordinateVec
  max_velocity : CordinateVec
  target_position : Option CordinateVec

/-- `Full::goto_target`: accelerate toward the target while outside the
braking distance; otherwise brake, and snap to the target (zeroing the
velocities and clearing `target_position`) once `distance < 0.04` and
`velocity < acceleration * time_delta`. -/
def Full.goto_target (s : Full) (time_delta acceleration : F)
    (target : CordinateVec) : Full :=
  let delta := target.sub s.position
  let distance := delta.dst
  let velocity := s.velocity.dst
  if F.Lt ((velocity.pow2).div ((F.fin 2).mul acceleration)) distance then
    let delta_velocity :=
      ((delta.to_sphere).update_dst ((acceleration.mul time_delta).mul (.fin 0.5))).to_position
    let v1 := s.velocity.add delta_velocity
    { s with velocity := v1.add delta_velocity,
             position := s.position.add (v1.smul time_delta) }
  else if F.Lt distance (.fin 0.04) ∧ F.Lt velocity (acceleration.mul time_delta) then
    { s with position := target,
             velocity := ⟨.fin 0, .fin 0, .fin 0⟩,
             target_velocity := ⟨.fin 0, .fin 0, .fin 0⟩,
             target_position := none }
  else
    let delta_velocity :=
      ((s.velocity.to_sphere).update_dst ((acceleration.mul time_delta).mul (.fin 0.5))).to_position
    let v1 := s.velocity.sub delta_velocity
    { s with velocity := v1.sub delta_velocity,
             position := s.position.add (v1.smul time_delta) }

/-! ### Evaluation lemmas for the `F` operations -/

@[simp] theorem F.isNan_fin (a : ℝ) : (F.fin a).isNan = false := rfl

@[simp] theorem F.isNan_nan : F.nan.isNan = true := rfl

@[simp] theorem F.isNan_pinf : F.pinf.isNan = true → False := by simp [F.isNan]

@[simp] theorem F.isFinite_fin (a : ℝ) : (F.fin a).isFinite = true := rfl

@[simp] theorem F.isFinite_nan : F.nan.isFinite = false := rfl

@[simp] theorem F.add_fin_fin (a b : ℝ) : (F.fin a).add (F.fin b) = F.fin (a + b) := rfl

@[simp] theorem F.add_nan_left (x : F) : F.nan.add x = F.nan := by cases x <;> rfl

@[simp] theorem F.add_nan_right (x : F) : x.add F.nan = F.nan := by cases x <;> rfl

@[simp] theorem F.neg_fin (a : ℝ) : (F.fin a).neg = F.fin (-a) := rfl

@[simp] theorem F.neg_nan : F.nan.neg = F.nan := rfl

@[simp] theorem F.sub_fin_fin (a b : ℝ) : (F.fin a).sub (F.fin b) = F.fin (a - b) := by
  show F.fin (a + -b) = F.fin (a - b)
  rw [← sub_eq_add_neg]

@[simp] theorem F.sub_nan_left (x : F) : F.nan.sub x = F.nan := by cases x <;> rfl

@[simp] theorem F.sub_nan_right (x : F) : x.sub F.nan = F.nan := by cases x <;> rfl

@[simp] theorem F.mul_fin_fin (a b : ℝ) : (F.fin a).mul (F.fin b) = F.fin (a * b) := rfl

@[simp] theorem F.mul_nan_left (x : F) : F.nan.mul x = F.nan := by cases x <;> rfl

@[simp] theorem F.mul_nan_right (x : F) : x.mul F.nan = F.nan := by cases x <;> rfl

@[simp] theorem F.pow2_fin (a : ℝ) : (F.fin a).pow2 = F.fin (a * a) := rfl

@[simp] theorem F.pow2_nan : F.nan.pow2 = F.nan := rfl

theorem F.div_fin_fin {b : ℝ} (a : ℝ) (h : b ≠ 0) :
    (F.fin a).div (F.fin b) = F.fin (a / b) := by
  show (if b = 0 then _ else _) = _
  rw [if_neg h]

theorem F.div_fin_zero_pos {a : ℝ} (h : 0 < a) :
    (F.fin a).div (F.fin 0) = F.pinf := by
  show (if (0 : ℝ) = 0 then _ else _) = _
  rw [if_pos rfl, if_pos h]

theorem F.div_fin_zero_neg {a : ℝ} (h : a < 0) :
    (F.fin a).div (F.fin 0) = F.ninf := by
  show (if (0 : ℝ) = 0 then _ else _) = _
  rw [if_pos rfl, if_neg (by linarith), if_pos h]

@[simp] theorem F.div_zero_zero : (F.fin 0).div (F.fin 0) = F.nan := by
  show (if (0 : ℝ) = 0 then _ else _) = _
  rw [if_pos rfl, if_neg (lt_irrefl 0), if_neg (lt_irrefl 0)]

@[simp] theorem F.div_nan_left (x : F) : F.nan.div x = F.nan := by cases x <;> rfl

@[simp] theorem F.div_nan_right (x : F) : x.div F.nan = F.nan := by cases x <;> rfl

theorem F.sqrt_fin {a : ℝ} (h : 0 ≤ a) : (F.fin a).sqrt = F.fin (Real.sqrt a) := by
  show (if a < 0 then _ else _) = _
  rw [if_neg (not_lt.mpr h)]

@[simp] theorem F.sqrt_nan : F.nan.sqrt = F.nan := rfl

@[simp] theorem F.atan_fin (a : ℝ) : (F.fin a).atan = F.fin (Real.arctan a) := rfl

@[simp] theorem F.atan_pinf : F.pinf.atan = F.fin (π / 2) := rfl

@[simp] theorem F.atan_ninf : F.ninf.atan = F.fin (-(π / 2)) := rfl

@[simp] theorem F.atan_nan : F.nan.atan = F.nan := rfl

theorem F.acos_fin {a : ℝ} (h1 : -1 ≤ a) (h2 : a ≤ 1) :
    (F.fin a).acos = F.fin (Real.arccos a) := by
  show (if a < -1 ∨ 1 < a then _ else _) = _
  rw [if_neg]
  rintro (h | h) <;> linarith

@[simp] theorem F.acos_nan : F.nan.acos = F.nan := rfl

@[simp] theorem F.acos_pinf : F.pinf.acos = F.nan := rfl

@[simp] theorem F.acos_ninf : F.ninf.acos = F.nan := rfl

@[simp] theorem F.sin_fin (a : ℝ) : (F.fin a).sin = F.fin (Real.sin a) := rfl

@[simp] theorem F.sin_nan : F.nan.sin = F.nan := rfl

@[simp] theorem F.cos_fin (a : ℝ) : (F.fin a).cos = F.fin (Real.cos a) := rfl

@[simp] theorem F.cos_nan : F.nan.cos = F.nan := rfl

@[simp] theorem F.toDegrees_fin (a : ℝ) :
    (F.fin a).toDegrees = F.fin (a * (180 / π)) := rfl

@[simp] theorem F.toDegrees_nan : F.nan.toDegrees = F.nan := rfl

@[simp] theorem F.Lt_fin_fin (a b : ℝ) : F.Lt (F.fin a) (F.fin b) ↔ a < b := Iff.rfl

@[simp] theorem F.Lt_fin_nan (a : ℝ) : F.Lt (F.fin a) F.nan ↔ False := Iff.rfl

@[simp] theorem F.Lt_nan (x : F) : F.Lt F.nan x ↔ False := by cases x <;> exact Iff.rfl

@[simp] theorem F.Le_fin_fin (a b : ℝ) : F.Le (F.fin a) (F.fin b) ↔ a ≤ b := Iff.rfl

@[simp] theorem F.Le_fin_nan (a : ℝ) : F.Le (F.fin a) F.nan ↔ False := Iff.rfl

theorem F.signumCast_fin_nonneg {a : ℝ} (h : 0 ≤ a) :
    (F.fin a).signumCast = 1 := by
  show (if a < 0 then _ else _) = _
  rw [if_neg (not_lt.mpr h)]

theorem F.signumCast_fin_neg {a : ℝ} (h : a < 0) :
    (F.fin a).signumCast = -1 := by
  show (if a < 0 then _ else _) = _
  rw [if_pos h]

@[simp] theorem F.signumCast_nan : F.nan.signumCast = 0 := rfl

theorem F.castU16_fin_nonneg {a : ℝ} (h : 0 ≤ a) :
    (F.fin a).castU16 = min 65535 (Int.toNat ⌊a⌋) := by
  show (if a < 0 then _ else _) = _
  rw [if_neg (not_lt.mpr h)]

@[simp] theorem F.castU16_nan : F.nan.castU16 = 0 := rfl

@[simp] theorem F.fin_inj (a b : ℝ) : F.fin a = F.fin b ↔ a = b :=
  ⟨fun h => by cases h; rfl, fun h => by rw [h]⟩

@[simp] theorem F.nan_ne_fin (a : ℝ) : F.nan = F.fin a ↔ False :=
  ⟨fun h => F.noConfusion h, False.elim⟩

@[simp] theorem F.fin_ne_nan (a : ℝ) : F.fin a = F.nan ↔ False :=
  ⟨fun h => F.noConfusion h, False.elim⟩

/-! ### Branch lemmas for the spherical conversion on finite vectors -/

theorem CordinateVec.f_dst_fin (x y : ℝ) (z : F) :
    CordinateVec.f_dst ⟨F.fin x, F.fin y, z⟩ = F.fin (Real.sqrt (x * x + y * y)) := by
  show ((F.fin x).pow2.add (F.fin y).pow2).sqrt = _
  rw [F.pow2_fin, F.pow2_fin, F.add_fin_fin,
    F.sqrt_fin (add_nonneg (mul_self_nonneg x) (mul_self_nonneg y))]

theorem CordinateVec.dst_fin (x y z : ℝ) :
    CordinateVec.dst ⟨F.fin x, F.fin y, F.fin z⟩ =
      F.fin (Real.sqrt (x * x + y * y + z * z)) := by
  show (((F.fin x).pow2.add (F.fin y).pow2).add (F.fin z).pow2).sqrt = _
  rw [F.pow2_fin, F.pow2_fin, F.pow2_fin, F.add_fin_fin, F.add_fin_fin,
    F.sqrt_fin (add_nonneg (add_nonneg (mul_self_nonneg x) (mul_self_nonneg y))
      (mul_self_nonneg z))]

theorem CordinateVec.azimuth_pos {x : ℝ} (y : ℝ) (z : F) (h : 0 < x) :
    CordinateVec.azimuth ⟨F.fin x, F.fin y, z⟩ = F.fin (Real.arctan (y / x)) := by
  unfold CordinateVec.azimuth
  rw [show (⟨F.fin x, F.fin y, z⟩ : CordinateVec).x = F.fin x from rfl,
    F.signumCast_fin_nonneg h.le, if_pos rfl]
  show ((F.fin y).div (F.fin x)).atan = _
  rw [F.div_fin_fin y (ne_of_gt h), F.atan_fin]

theorem CordinateVec.azimuth_neg {x : ℝ} (y : ℝ) (z : F) (h : x < 0) :
    CordinateVec.azimuth ⟨F.fin x, F.fin y, z⟩ =
      F.fin (Real.arctan (y / x) + π) := by
  unfold CordinateVec.azimuth
  rw [show (⟨F.fin x, F.fin y, z⟩ : CordinateVec).x = F.fin x from rfl,
    F.signumCast_fin_neg h, if_neg (by decide), if_pos rfl]
  show (((F.fin y).div (F.fin x)).atan).add (F.fin π) = _
  rw [F.div_fin_fin y (ne_of_lt h), F.atan_fin, F.add_fin_fin]

theorem CordinateVec.azimuth_zero_pos {y : ℝ} (z : F) (h : 0 < y) :
    CordinateVec.azimuth ⟨F.fin 0, F.fin y, z⟩ = F.fin (π / 2) := by
  unfold CordinateVec.azimuth
  rw [show (⟨F.fin 0, F.fin y, z⟩ : CordinateVec).x = F.fin 0 from rfl,
    F.signumCast_fin_nonneg le_rfl, if_pos rfl]
  show ((F.fin y).div (F.fin 0)).atan = _
  rw [F.div_fin_zero_pos h, F.atan_pinf]

theorem CordinateVec.azimuth_zero_neg {y : ℝ} (z : F) (h : y < 0) :
    CordinateVec.azimuth ⟨F.fin 0, F.fin y, z⟩ = F.fin (-(π / 2)) := by
  unfold CordinateVec.azimuth
  rw [show (⟨F.fin 0, F.fin y, z⟩ : CordinateVec).x = F.fin 0 from rfl,
    F.signumCast_fin_nonneg le_rfl, if_pos rfl]
  show ((F.fin y).div (F.fin 0)).atan = _
  rw [F.div_fin_zero_neg h, F.atan_ninf]

theorem CordinateVec.azimuth_zero_zero (z : F) :
    CordinateVec.azimuth ⟨F.fin 0, F.fin 0, z⟩ = F.nan := by
  unfold CordinateVec.azimuth
  rw [show (⟨F.fin 0, F.fin 0, z⟩ : CordinateVec).x = F.fin 0 from rfl,
    F.signumCast_fin_nonneg le_rfl, if_pos rfl]
  show ((F.fin 0).div (F.fin 0)).atan = _
  rw [F.div_zero_zero, F.atan_nan]

theorem CordinateVec.polar_pos (x y : ℝ) {z : ℝ} (h : 0 < z) :
    CordinateVec.polar ⟨F.fin x, F.fin y, F.fin z⟩ =
      F.fin (Real.arctan (Real.sqrt (x * x + y * y) / z)) := by
  unfold CordinateVec.polar
  rw [show (⟨F.fin x, F.fin y, F.fin z⟩ : CordinateVec).z = F.fin z from rfl,
    F.signumCast_fin_nonneg h.le, if_pos rfl, CordinateVec.f_dst_fin,
    F.div_fin_fin _ (ne_of_gt h), F.atan_fin]

theorem CordinateVec.polar_neg (x y : ℝ) {z : ℝ} (h : z < 0) :
    CordinateVec.polar ⟨F.fin x, F.fin y, F.fin z⟩ =
      F.fin (Real.arctan (Real.sqrt (x * x + y * y) / z) + π) := by
  unfold CordinateVec.polar
  rw [show (⟨F.fin x, F.fin y, F.fin z⟩ : CordinateVec).z = F.fin z from rfl,
    F.signumCast_fin_neg h, if_neg (by decide), if_pos rfl,
    CordinateVec.f_dst_fin, F.div_fin_fin _ (ne_of_lt h), F.atan_fin,
    F.add_fin_fin]

theorem CordinateVec.polar_zplane {x y : ℝ} (h : ¬(x = 0 ∧ y = 0)) :
    CordinateVec.polar ⟨F.fin x, F.fin y, F.fin 0⟩ = F.fin (π / 2) := by
  unfold CordinateVec.polar
  rw [show (⟨F.fin x, F.fin y, F.fin 0⟩ : CordinateVec).z = F.fin 0 from rfl,
    F.signumCast_fin_nonneg le_rfl, if_pos rfl, CordinateVec.f_dst_fin,
    F.div_fin_zero_pos (Real.sqrt_pos.mpr (by
      rcases not_and_or.mp h with hx | hy
      · have : 0 < x * x := mul_self_pos.mpr hx
        nlinarith [mul_self_nonneg y]
      · have : 0 < y * y := mul_self_pos.mpr hy
        nlinarith [mul_self_nonneg x])), F.atan_pinf]

theorem CordinateVec.polar_origin_plane :
    CordinateVec.polar ⟨F.fin 0, F.fin 0, F.fin 0⟩ = F.nan := by
  unfold CordinateVec.polar
  rw [show (⟨F.fin 0, F.fin 0, F.fin 0⟩ : CordinateVec).z = F.fin 0 from rfl,
    F.signumCast_fin_nonneg le_rfl, if_pos rfl, CordinateVec.f_dst_fin]
  rw [show Real.sqrt (0 * 0 + 0 * 0) = 0 by simp, F.div_zero_zero, F.atan_nan]

/-! ### Real analysis for the spherical round trip -/

theorem sqrt_one_add_div_sq {x : ℝ} (y : ℝ) (h : x ≠ 0) :
    Real.sqrt (1 + (y / x) ^ 2) = Real.sqrt (x * x + y * y) / |x| := by
  have hx : (0 : ℝ) < x * x := mul_self_pos.mpr h
  rw [show 1 + (y / x) ^ 2 = (x * x + y * y) / (x * x) by field_simp; ring,
    Real.sqrt_div (by nlinarith [mul_self_nonneg y]) (x * x),
    Real.sqrt_mul_self_eq_abs]

theorem rt_cos {x : ℝ} (y : ℝ) (h : x ≠ 0) :
    Real.sqrt (x * x + y * y) * Real.cos (Real.arctan (y / x)) = |x| := by
  rw [Real.cos_arctan, sqrt_one_add_div_sq y h]
  have hs : (0 : ℝ) < Real.sqrt (x * x + y * y) :=
    Real.sqrt_pos.mpr (by nlinarith [mul_self_pos.mpr h, mul_self_nonneg y])
  have ha : |x| ≠ 0 := abs_ne_zero.mpr h
  field_simp

theorem rt_sin {x : ℝ} (y : ℝ) (h : x ≠ 0) :
    Real.sqrt (x * x + y * y) * Real.sin (Real.arctan (y / x)) = y / x * |x| := by
  rw [Real.sin_arctan, sqrt_one_add_div_sq y h]
  have hs : (0 : ℝ) < Real.sqrt (x * x + y * y) :=
    Real.sqrt_pos.mpr (by nlinarith [mul_self_pos.mpr h, mul_self_nonneg y])
  have ha : |x| ≠ 0 := abs_ne_zero.mpr h
  field_simp
  ring

theorem roundtrip_x (x y : ℝ) (w : F) (h : ¬(x = 0 ∧ y = 0)) :
    (F.fin (Real.sqrt (x * x + y * y))).mul
      (CordinateVec.azimuth ⟨F.fin x, F.fin y, w⟩).cos = F.fin x := by
  rcases lt_trichotomy x 0 with hx | hx | hx
  · rw [CordinateVec.azimuth_neg y w hx, F.cos_fin, F.mul_fin_fin,
      Real.cos_add_pi, mul_neg, rt_cos y (ne_of_lt hx), abs_of_neg hx, neg_neg]
  · subst hx
    have hy : y ≠ 0 := fun h0 => h ⟨rfl, h0⟩
    rcases lt_trichotomy y 0 with hy2 | hy2 | hy2
    · rw [CordinateVec.azimuth_zero_neg w hy2, F.cos_fin, F.mul_fin_fin,
        Real.cos_neg, Real.cos_pi_div_two, mul_zero]
    · exact absurd hy2 hy
    · rw [CordinateVec.azimuth_zero_pos w hy2, F.cos_fin, F.mul_fin_fin,
        Real.cos_pi_div_two, mul_zero]
  · rw [CordinateVec.azimuth_pos y w hx, F.cos_fin, F.mul_fin_fin,
      rt_cos y (ne_of_gt hx), abs_of_pos hx]

theorem roundtrip_y (x y : ℝ) (w : F) (h : ¬(x = 0 ∧ y = 0)) :
    (F.fin (Real.sqrt (x * x + y * y))).mul
      (CordinateVec.azimuth ⟨F.fin x, F.fin y, w⟩).sin = F.fin y := by
  rcases lt_trichotomy x 0 with hx | hx | hx
  · rw [CordinateVec.azimuth_neg y w hx, F.sin_fin, F.mul_fin_fin,
      Real.sin_add_pi, mul_neg, rt_sin y (ne_of_lt hx), abs_of_neg hx]
    rw [F.fin_inj]
    have hx0 : x ≠ 0 := ne_of_lt hx
    field_simp
  · subst hx
    have hy : y ≠ 0 := fun h0 => h ⟨rfl, h0⟩
    rcases lt_trichotomy y 0 with hy2 | hy2 | hy2
    · rw [CordinateVec.azimuth_zero_neg w hy2, F.sin_fin, F.mul_fin_fin,
        Real.sin_neg, Real.sin_pi_div_two, mul_neg, mul_one, F.fin_inj,
        show (0 : ℝ) * 0 + y * y = y * y by ring, Real.sqrt_mul_self_eq_abs,
        abs_of_neg hy2, neg_neg]
    · exact absurd hy2 hy
    · rw [CordinateVec.azimuth_zero_pos w hy2, F.sin_fin, F.mul_fin_fin,
        Real.sin_pi_div_two, mul_one, F.fin_inj,
        show (0 : ℝ) * 0 + y * y = y * y by ring, Real.sqrt_mul_self_eq_abs,
        abs_of_pos hy2]
  · rw [CordinateVec.azimuth_pos y w hx, F.sin_fin, F.mul_fin_fin,
      rt_sin y (ne_of_gt hx), abs_of_pos hx, F.fin_inj]
    have hx0 : x ≠ 0 := ne_of_gt hx
    field_simp

theorem roundtrip_z (x y z : ℝ) (h : ¬(x = 0 ∧ y = 0)) :
    (F.fin (Real.sqrt (x * x + y * y + z * z))).mul
      (CordinateVec.polar ⟨F.fin x, F.fin y, F.fin z⟩).cos = F.fin z := by
  have hf : Real.sqrt (x * x + y * y) * Real.sqrt (x * x + y * y) = x * x + y * y :=
    Real.mul_self_sqrt (add_nonneg (mul_self_nonneg x) (mul_self_nonneg y))
  have hd : Real.sqrt (x * x + y * y + z * z) =
      Real.sqrt (z * z + Real.sqrt (x * x + y * y) * Real.sqrt (x * x + y * y)) := by
    rw [hf]; ring_nf
  rcases lt_trichotomy z 0 with hz | hz | hz
  · rw [CordinateVec.polar_neg x y hz, F.cos_fin, F.mul_fin_fin,
      Real.cos_add_pi, mul_neg, hd, rt_cos (Real.sqrt (x * x + y * y)) (ne_of_lt hz),
      abs_of_neg hz, neg_neg]
  · subst hz
    rw [CordinateVec.polar_zplane h, F.cos_fin, F.mul_fin_fin,
      Real.cos_pi_div_two, mul_zero]
  · rw [CordinateVec.polar_pos x y hz, F.cos_fin, F.mul_fin_fin, hd,
      rt_cos (Real.sqrt (x * x + y * y)) (ne_of_gt hz), abs_of_pos hz]

/-- C9: for every vector off the polar axis (`x` and `y` not both zero),
converting to spherical coordinates and back yields the original vector.
In this exact-real model the round trip is exact, which in particular is
within the 1e-4 tolerance the specification asks for.  (On the polar axis
the conversion produces NaN, see C3.) -/
theorem C9_sphere_roundtrip (x y z : ℝ) (h : ¬(x = 0 ∧ y = 0)) :
    (CordinateVec.to_sphere ⟨F.fin x, F.fin y, F.fin z⟩).to_position =
      ⟨F.fin x, F.fin y, F.fin z⟩ := by
  unfold CordinateVec.to_sphere SphereVec.to_position
  simp only
  rw [CordinateVec.f_dst_fin, CordinateVec.dst_fin, CordinateVec.mk.injEq]
  exact ⟨roundtrip_x x y (F.fin z) h, roundtrip_y x y (F.fin z) h,
    roundtrip_z x y z h⟩

/-- Witness for C9 at the concrete vector (1, 1, 1). -/
theorem C9_sphere_roundtrip_witness :
    (CordinateVec.to_sphere ⟨F.fin 1, F.fin 1, F.fin 1⟩).to_position =
      ⟨F.fin 1, F.fin 1, F.fin 1⟩ :=
  C9_sphere_roundtrip 1 1 1 (by norm_num)

/-- C3: the degenerate-case guards do not behave as specified, because
Rust's `f64::signum` returns 1.0 on zero: for `z = 0` the polar angle is
`atan(f_dst / 0) = atan(+inf) = pi/2` (not 0), and for `x = y = 0` the
azimuth is `atan(0/0) = atan(NaN) = NaN` (not 0).  This contradicts the
code's own doc example, which asserts `polar = 0` for the vector (1,1,0). -/
theorem C3_degenerate_guard_bug :
    CordinateVec.polar ⟨F.fin 1, F.fin 1, F.fin 0⟩ = F.fin (π / 2) ∧
    F.fin (π / 2) ≠ F.fin 0 ∧
    CordinateVec.azimuth ⟨F.fin 0, F.fin 0, F.fin 1⟩ = F.nan ∧
    (CordinateVec.azimuth ⟨F.fin 0, F.fin 0, F.fin 1⟩).isNan = true := by
  refine ⟨CordinateVec.polar_zplane (by norm_num), ?_,
    CordinateVec.azimuth_zero_zero _, ?_⟩
  · rw [Ne, F.fin_inj]
    intro h
    exact Real.pi_ne_zero (by linarith)
  · rw [CordinateVec.azimuth_zero_zero]
    rfl

/-- C10 counterexample: the spherical vector built by `SphereVec::new`
with azimuth 0, polar 0, distance 1 has `flat_distance = 1 * sin 0 = 0`,
while `distance * cos(polar) = 1 * cos 0 = 1`, so the claimed invariant
`flat_distance = distance * cos(polar)` is false. -/
theorem C10_cos_invariant_counterexample :
    (SphereVec.new (F.fin 0) (F.fin 0) (F.fin 1)).flat_distance = F.fin 0 ∧
    (SphereVec.new (F.fin 0) (F.fin 0) (F.fin 1)).distance.mul
      (SphereVec.new (F.fin 0) (F.fin 0) (F.fin 1)).polar.cos = F.fin 1 ∧
    F.fin (0 : ℝ) ≠ F.fin 1 := by
  refine ⟨?_, ?_, ?_⟩
  · show (F.fin 1).mul (F.fin (0 : ℝ)).sin = F.fin 0
    rw [F.sin_fin, F.mul_fin_fin, Real.sin_zero, mul_zero]
  · show (F.fin 1).mul (F.fin (0 : ℝ)).cos = F.fin 1
    rw [F.cos_fin, F.mul_fin_fin, Real.cos_zero, mul_one]
  · rw [Ne, F.fin_inj]
    norm_num

/-- C10 as amended: the cached invariant uses the sine, not the cosine, of
the polar angle: `SphereVec::new` and `update_dst` both set
`flat_distance = distance * sin(polar)`, and the output of `to_sphere` on
any finite nonzero vector satisfies `flat_distance = distance * sin(polar)`
(at the origin azimuth and polar are NaN, see C3). -/
theorem C10_sin_invariant :
    (∀ (s : SphereVec) (d : F), (s.update_dst d).distance = d ∧
        (s.update_dst d).flat_distance = d.mul s.polar.sin) ∧
    (∀ az p d : F, (SphereVec.new az p d).flat_distance = d.mul p.sin) ∧
    (∀ x y z : ℝ, ¬(x = 0 ∧ y = 0 ∧ z = 0) →
      (CordinateVec.to_sphere ⟨F.fin x, F.fin y, F.fin z⟩).flat_distance =
        (CordinateVec.to_sphere ⟨F.fin x, F.fin y, F.fin z⟩).distance.mul
          (CordinateVec.to_sphere ⟨F.fin x, F.fin y, F.fin z⟩).polar.sin) := by
  refine ⟨fun s d => ⟨rfl, rfl⟩, fun az p d => rfl, fun x y z h => ?_⟩
  unfold CordinateVec.to_sphere
  simp only
  rw [CordinateVec.f_dst_fin, CordinateVec.dst_fin]
  have hf2 : Real.sqrt (x * x + y * y) * Real.sqrt (x * x + y * y) = x * x + y * y :=
    Real.mul_self_sqrt (add_nonneg (mul_self_nonneg x) (mul_self_nonneg y))
  have hd : Real.sqrt (x * x + y * y + z * z) =
      Real.sqrt (z * z + Real.sqrt (x * x + y * y) * Real.sqrt (x * x + y * y)) := by
    rw [hf2]; ring_nf
  rcases lt_trichotomy z 0 with hz | hz | hz
  · rw [CordinateVec.polar_neg x y hz, F.sin_fin, F.mul_fin_fin,
      Real.sin_add_pi, mul_neg, hd,
      rt_sin (Real.sqrt (x * x + y * y)) (ne_of_lt hz), abs_of_neg hz,
      F.fin_inj]
    have hz0 : z ≠ 0 := ne_of_lt hz
    field_simp
  · subst hz
    have hxy : ¬(x = 0 ∧ y = 0) := fun hc => h ⟨hc.1, hc.2, rfl⟩
    rw [CordinateVec.polar_zplane hxy, F.sin_fin, F.mul_fin_fin,
      Real.sin_pi_div_two, mul_one, F.fin_inj,
      show x * x + y * y + 0 * 0 = x * x + y * y by ring]
  · rw [CordinateVec.polar_pos x y hz, F.sin_fin, F.mul_fin_fin, hd,
      rt_sin (Real.sqrt (x * x + y * y)) (ne_of_gt hz), abs_of_pos hz,
      F.fin_inj]
    have hz0 : z ≠ 0 := ne_of_gt hz
    field_simp

/-- C1: `Joint::into_servo` does not implement the specified affine map
onto `[MIN_SERVO, MAX_SERVO] = [250, 2400]`: it divides by `max` instead
of the angle range and adds the joint's `min` angle instead of
`MIN_SERVO`.  For the default joint (DirectDrive, min 0, max 180) the
actuator angle `min = 0` maps to command 0 (the claim says 250) and the
actuator angle `max = 180` maps to command 2150 (the claim says 2400).
The older variant `impl Into<u16> for Angle` in robot.rs implements the
specified map and does hit 250 and 2400 at the endpoints. -/
theorem C1_into_servo_bug :
    Joint.default.into_servo = 0 ∧ (0 : ℕ) ≠ 250 ∧
    ({ Joint.default with angle := F.fin 180 } : Joint).into_servo = 2150 ∧
    (2150 : ℕ) ≠ 2400 ∧
    Angle.into_u16 (F.fin MIN_ANGLE) = 250 ∧
    Angle.into_u16 (F.fin MAX_ANGLE) = 2400 := by
  refine ⟨?_, by norm_num, ?_, by norm_num, ?_, ?_⟩
  · show F.castU16 (((F.fin ((MAX_SERVO - MIN_SERVO : ℕ) : ℝ)).mul
      (((F.fin 0).sub (F.fin 0)).div (F.fin 180))).add (F.fin 0)) = 0
    rw [F.sub_fin_fin, F.div_fin_fin _ (by norm_num : (180 : ℝ) ≠ 0),
      F.mul_fin_fin, F.add_fin_fin,
      show ((MAX_SERVO - MIN_SERVO : ℕ) : ℝ) * ((0 - 0) / 180) + 0 = 0 by norm_num,
      F.castU16_fin_nonneg le_rfl]
    simp
  · show F.castU16 (((F.fin ((MAX_SERVO - MIN_SERVO : ℕ) : ℝ)).mul
      (((F.fin 180).sub (F.fin 0)).div (F.fin 180))).add (F.fin 0)) = 2150
    rw [F.sub_fin_fin, F.div_fin_fin _ (by norm_num : (180 : ℝ) ≠ 0),
      F.mul_fin_fin, F.add_fin_fin,
      show ((MAX_SERVO - MIN_SERVO : ℕ) : ℝ) * ((180 - 0) / 180) + 0 = 2150 by
        norm_num [MAX_SERVO, MIN_SERVO],
      F.castU16_fin_nonneg (by norm_num)]
    simp
  · show F.castU16 (((F.fin ((MAX_SERVO - MIN_SERVO : ℕ) : ℝ)).mul
      (((F.fin MIN_ANGLE).sub (F.fin MIN_ANGLE)).div (F.fin MAX_ANGLE))).add
        (F.fin (MIN_SERVO : ℕ))) = 250
    rw [F.sub_fin_fin, F.div_fin_fin _ (by norm_num [MAX_ANGLE] : MAX_ANGLE ≠ 0),
      F.mul_fin_fin, F.add_fin_fin,
      show ((MAX_SERVO - MIN_SERVO : ℕ) : ℝ) * ((MIN_ANGLE - MIN_ANGLE) / MAX_ANGLE)
          + ((MIN_SERVO : ℕ) : ℝ) = 250 by norm_num [MIN_ANGLE, MIN_SERVO],
      F.castU16_fin_nonneg (by norm_num)]
    simp
  · show F.castU16 (((F.fin ((MAX_SERVO - MIN_SERVO : ℕ) : ℝ)).mul
      (((F.fin MAX_ANGLE).sub (F.fin MIN_ANGLE)).div (F.fin MAX_ANGLE))).add
        (F.fin (MIN_SERVO : ℕ))) = 2400
    rw [F.sub_fin_fin, F.div_fin_fin _ (by norm_num [MAX_ANGLE] : MAX_ANGLE ≠ 0),
      F.mul_fin_fin, F.add_fin_fin,
      show ((MAX_SERVO - MIN_SERVO : ℕ) : ℝ) * ((MAX_ANGLE - MIN_ANGLE) / MAX_ANGLE)
          + ((MIN_SERVO : ℕ) : ℝ) = 2400 by
        norm_num [MAX_ANGLE, MIN_ANGLE, MAX_SERVO, MIN_SERVO],
      F.castU16_fin_nonneg (by norm_num)]
    simp

/-- The default joint (DirectDrive, min 0, max 180, angle 0) converts to
servo command 0 under `Joint::into_servo`. -/
theorem Joint_default_into_servo_eq : Joint.default.into_servo = 0 := by
  show F.castU16 (((F.fin ((MAX_SERVO - MIN_SERVO : ℕ) : ℝ)).mul
    (((F.fin 0).sub (F.fin 0)).div (F.fin 180))).add (F.fin 0)) = 0
  rw [F.sub_fin_fin, F.div_fin_fin _ (by norm_num : (180 : ℝ) ≠ 0),
    F.mul_fin_fin, F.add_fin_fin,
    show ((MAX_SERVO - MIN_SERVO : ℕ) : ℝ) * ((0 - 0) / 180) + 0 = 0 by norm_num,
    F.castU16_fin_nonneg le_rfl]
  simp

/-- C2 counterexample to the range clause: the default arm (all joints at
angle 0) produces the message [0,0,0,0,0,0,0,0] through
`Arm::to_servos` and `Servos::to_message`, and its base command 0 is not
in the claimed range [250, 2400]. -/
theorem C2_range_counterexample :
    Arm.default.to_servos.to_message = [0, 0, 0, 0, 0, 0, 0, 0] ∧
    Arm.default.to_servos.base < 250 := by
  have hs : Arm.default.to_servos = ⟨0, 0, 0, 0⟩ := by
    unfold Arm.to_servos Arm.default
    simp only
    rw [Servos.mk.injEq]
    exact ⟨Joint_default_into_servo_eq, Joint_default_into_servo_eq,
      Joint_default_into_servo_eq, Joint_default_into_servo_eq⟩
  rw [hs]
  exact ⟨rfl, by norm_num⟩

/-- C2 as amended: every message is exactly 8 bytes, the four 16-bit
commands little-endian in order (base, shoulder, elbow, claw), with every
byte below 256, and the concrete example from the unit test holds; the
commands themselves are however not guaranteed to lie in [250, 2400]
(see the counterexample and C1). -/
theorem C2_message_encoding :
    (∀ s : Servos, (s.to_message).length = 8 ∧
      decode16 s.to_message =
        [s.base % 65536, s.shoulder % 65536, s.elbow % 65536, s.claw % 65536] ∧
      ∀ b ∈ s.to_message, b < 256) ∧
    Servos.to_message ⟨100, 200, 50, 1⟩ = [100, 0, 200, 0, 50, 0, 1, 0] := by
  constructor
  · intro s
    refine ⟨rfl, ?_, ?_⟩
    · show [s.base % 256 + 256 * (s.base / 256 % 256),
        s.shoulder % 256 + 256 * (s.shoulder / 256 % 256),
        s.elbow % 256 + 256 * (s.elbow / 256 % 256),
        s.claw % 256 + 256 * (s.claw / 256 % 256)] = _
      rw [List.cons.injEq, List.cons.injEq, List.cons.injEq, List.cons.injEq]
      refine ⟨?_, ?_, ?_, ?_, rfl⟩ <;> omega
    · intro b hb
      simp only [Servos.to_message, List.mem_cons, List.not_mem_nil, or_false] at hb
      rcases hb with h | h | h | h | h | h | h | h <;> subst h <;> omega
  · rfl

/-! ### NaN-or-finite analysis: the IK angle computations never produce
an infinity, so a non-NaN result is a finite real -/

/-- The value is not an infinity: it is NaN or a finite real. -/
def F.NotInf (a : F) : Prop := a = F.nan ∨ ∃ r, a = F.fin r

theorem F.notInf_fin (r : ℝ) : (F.fin r).NotInf := Or.inr ⟨r, rfl⟩

theorem F.notInf_nan : F.nan.NotInf := Or.inl rfl

theorem F.notInf_atan (a : F) : a.atan.NotInf := by
  cases a
  · exact Or.inr ⟨_, rfl⟩
  · exact Or.inr ⟨_, rfl⟩
  · exact Or.inr ⟨_, rfl⟩
  · exact Or.inl rfl

theorem F.notInf_acos (a : F) : a.acos.NotInf := by
  cases a with
  | fin r =>
    show (if r < -1 ∨ 1 < r then F.nan else F.fin (Real.arccos r)).NotInf
    split_ifs
    · exact Or.inl rfl
    · exact Or.inr ⟨_, rfl⟩
  | pinf => exact Or.inl rfl
  | ninf => exact Or.inl rfl
  | nan => exact Or.inl rfl

theorem F.notInf_add {a b : F} (ha : a.NotInf) (hb : b.NotInf) :
    (a.add b).NotInf := by
  rcases ha with ha | ⟨r, ha⟩ <;> rcases hb with hb | ⟨s, hb⟩ <;> subst ha <;> subst hb
  · exact Or.inl rfl
  · exact Or.inl rfl
  · exact Or.inl (F.add_nan_right _)
  · exact Or.inr ⟨r + s, rfl⟩

theorem F.notInf_neg {a : F} (ha : a.NotInf) : a.neg.NotInf := by
  rcases ha with ha | ⟨r, ha⟩ <;> subst ha
  · exact Or.inl rfl
  · exact Or.inr ⟨-r, rfl⟩

theorem F.notInf_sub {a b : F} (ha : a.NotInf) (hb : b.NotInf) :
    (a.sub b).NotInf :=
  F.notInf_add ha (F.notInf_neg hb)

theorem F.notInf_mul {a b : F} (ha : a.NotInf) (hb : b.NotInf) :
    (a.mul b).NotInf := by
  rcases ha with ha | ⟨r, ha⟩ <;> rcases hb with hb | ⟨s, hb⟩ <;> subst ha <;> subst hb
  · exact Or.inl rfl
  · exact Or.inl rfl
  · exact Or.inl (F.mul_nan_right _)
  · exact Or.inr ⟨r * s, rfl⟩

theorem F.notInf_toDegrees {a : F} (ha : a.NotInf) : a.toDegrees.NotInf :=
  F.notInf_mul ha (F.notInf_fin _)

theorem notInf_a_from_lengths (a b c : F) : (a_from_lengths a b c).NotInf :=
  F.notInf_acos _

theorem notInf_azimuth (v : CordinateVec) : v.azimuth.NotInf := by
  unfold CordinateVec.azimuth
  split_ifs
  · exact F.notInf_atan _
  · exact F.notInf_add (F.notInf_atan _) (F.notInf_fin _)
  · exact F.notInf_fin _

theorem notInf_ikBase (v : CordinateVec) : (ikBase v).NotInf :=
  F.notInf_add (F.notInf_toDegrees (notInf_azimuth v)) (F.notInf_fin _)

theorem notInf_ikElbow (v : CordinateVec) (ua la : F) :
    (ikElbow v ua la).NotInf :=
  F.notInf_toDegrees (notInf_a_from_lengths _ _ _)

theorem notInf_ikShoulder (v : CordinateVec) (ua la : F) :
    (ikShoulder v ua la).NotInf := by
  unfold ikShoulder
  apply F.notInf_toDegrees
  split_ifs
  · exact F.notInf_sub (F.notInf_sub (F.notInf_fin _) (F.notInf_atan _))
      (notInf_a_from_lengths _ _ _)
  · exact F.notInf_add (F.notInf_atan _) (notInf_a_from_lengths _ _ _)

theorem F.finite_of_notInf_not_nan {a : F} (h1 : a.NotInf)
    (h2 : ¬ a.isNan = true) : a.isFinite = true := by
  rcases h1 with h | ⟨r, h⟩ <;> subst h
  · exact absurd rfl h2
  · rfl

/-- The reflected-shoulder expression collapses to NaN when the
elevation term is NaN. -/
theorem shoulder_shape_nan (B : F) :
    (if F.Lt (F.fin (π / 2)) (F.nan.add B) then ((F.fin π).sub F.nan).sub B
     else F.nan.add B).toDegrees = F.nan := by
  rw [F.add_nan_left, if_neg (by simp : ¬ F.Lt (F.fin (π / 2)) F.nan),
    F.toDegrees_nan]

/-- The shoulder computation is NaN whenever its elevation term
`atan(flat_distance / z)` is NaN. -/
theorem ikShoulder_nan_of_elevation_nan (v : CordinateVec) (ua la : F)
    (h : ((v.to_sphere.flat_distance).div v.z).atan = F.nan) :
    ikShoulder v ua la = F.nan := by
  simp only [ikShoulder]
  rw [h]
  exact shoulder_shape_nan _

/-- At the origin the shoulder computation is NaN: `flat_distance / z`
is `0 / 0`. -/
theorem ikShoulder_origin_nan :
    ikShoulder ⟨F.fin 0, F.fin 0, F.fin 0⟩ (F.fin 0) (F.fin 0) = F.nan := by
  apply ikShoulder_nan_of_elevation_nan
  have hfd : (CordinateVec.to_sphere ⟨F.fin 0, F.fin 0, F.fin 0⟩).flat_distance
      = F.fin 0 := by
    show CordinateVec.f_dst ⟨F.fin 0, F.fin 0, F.fin 0⟩ = F.fin 0
    rw [CordinateVec.f_dst_fin, show (0 : ℝ) * 0 + 0 * 0 = 0 by norm_num,
      Real.sqrt_zero]
  rw [hfd]
  show ((F.fin 0).div (F.fin 0)).atan = F.nan
  rw [F.div_zero_zero, F.atan_nan]

/-- C7: `inverse_kinematics` returns the error exactly when one of the
computed base, shoulder or elbow angles is NaN, returns finite real
angles otherwise, and in particular fails at the origin with zero arm
lengths (there `azimuth` and the shoulder elevation are `atan(0/0)`). -/
theorem C7_ik_error_iff_nan :
    (∀ (v : CordinateVec) (ua la : F),
      (v.inverse_kinematics ua la = .error () ↔
        ((ikBase v).isNan ∨ (ikShoulder v ua la).isNan ∨
          (ikElbow v ua la).isNan))) ∧
    (∀ (v : CordinateVec) (ua la b s e : F),
      v.inverse_kinematics ua la = .ok (b, s, e) →
        b.isFinite = true ∧ s.isFinite = true ∧ e.isFinite = true) ∧
    (CordinateVec.inverse_kinematics ⟨F.fin 0, F.fin 0, F.fin 0⟩
      (F.fin 0) (F.fin 0) = .error ()) := by
  refine ⟨?_, ?_, ?_⟩
  · intro v ua la
    simp only [CordinateVec.inverse_kinematics]
    split_ifs with h
    · simp only [Bool.or_eq_true] at h
      exact ⟨fun _ => by tauto, fun _ => rfl⟩
    · simp only [Bool.or_eq_true, not_or] at h
      refine ⟨fun he => ?_, fun hr => ?_⟩
      · simp at he
      · rcases hr with h1 | h2 | h3
        · exact absurd h1 h.1.2
        · exact absurd h2 h.1.1
        · exact absurd h3 h.2
  · intro v ua la b s e hok
    simp only [CordinateVec.inverse_kinematics] at hok
    split_ifs at hok with h
    simp only [Bool.or_eq_true, not_or] at h
    injection hok with hinj
    rw [Prod.mk.injEq, Prod.mk.injEq] at hinj
    obtain ⟨hb, hs, he⟩ := hinj
    subst hb; subst hs; subst he
    exact ⟨F.finite_of_notInf_not_nan (notInf_ikBase v) h.1.2,
      F.finite_of_notInf_not_nan (notInf_ikShoulder v ua la) h.1.1,
      F.finite_of_notInf_not_nan (notInf_ikElbow v ua la) h.2⟩
  · have h := ikShoulder_origin_nan
    simp only [CordinateVec.inverse_kinematics, h, F.isNan_nan, Bool.true_or]
    rfl

/-- Working in radians and reflecting at pi/2 before converting to
degrees is the same as converting both summands to degrees and
reflecting at 90, for NaN-or-finite summands. -/
theorem shoulder_deg_reflect (A B : F) (hA : A.NotInf) (hB : B.NotInf) :
    (if F.Lt (F.fin (π / 2)) (A.add B) then ((F.fin π).sub A).sub B
     else A.add B).toDegrees =
    (if F.Lt (F.fin 90) ((A.toDegrees).add (B.toDegrees))
     then (F.fin 180).sub ((A.toDegrees).add (B.toDegrees))
     else (A.toDegrees).add (B.toDegrees)) := by
  have hc : (0 : ℝ) < 180 / π := by positivity
  rcases hA with hA | ⟨a, hA⟩ <;> rcases hB with hB | ⟨b, hB⟩ <;>
    subst hA <;> subst hB
  · simp
  · simp
  · simp
  · rw [F.add_fin_fin, F.toDegrees_fin, F.toDegrees_fin, F.add_fin_fin]
    have hiff : (π / 2 < a + b) ↔ (90 < a * (180 / π) + b * (180 / π)) := by
      rw [← add_mul, show (90 : ℝ) = (π / 2) * (180 / π) by
        field_simp; ring]
      exact (mul_lt_mul_right hc).symm
    split_ifs with h1 h2 h2
    · rw [F.sub_fin_fin, F.sub_fin_fin, F.toDegrees_fin, F.sub_fin_fin,
        F.fin_inj]
      field_simp
      ring
    · exact absurd (hiff.mp h1) h2
    · exact absurd (hiff.mpr h2) h1
    · rw [F.toDegrees_fin, F.fin_inj, add_mul]

/-- C6: the inverse-kinematics output follows the spec formula (base =
azimuth in degrees + 90, elbow = angle_from_sides(upper, lower, distance)
in degrees, shoulder = elevation + angle_from_sides(distance, lower,
upper) reflected at 90 degrees), and at the position (sqrt 2, 0, 0) with
unit arms it returns exactly (90, 45, 90) degrees. -/
theorem C6_inverse_kinematics :
    (CordinateVec.inverse_kinematics ⟨F.fin (Real.sqrt 2), F.fin 0, F.fin 0⟩
        (F.fin 1) (F.fin 1) = .ok (F.fin 90, F.fin 45, F.fin 90)) ∧
    (∀ (v : CordinateVec) (ua la : F) (r : F × F × F),
      v.inverse_kinematics ua la = .ok r → r = ik_spec_angles v ua la) := by
  constructor
  · have h2pos : (0 : ℝ) < Real.sqrt 2 := Real.sqrt_pos.mpr (by norm_num)
    have hss : Real.sqrt 2 * Real.sqrt 2 = 2 := Real.mul_self_sqrt (by norm_num)
    have hpi := Real.pi_pos
    have haz : CordinateVec.azimuth ⟨F.fin (Real.sqrt 2), F.fin 0, F.fin 0⟩
        = F.fin 0 := by
      rw [CordinateVec.azimuth_pos 0 (F.fin 0) h2pos, F.fin_inj, zero_div,
        Real.arctan_zero]
    have hbase : ikBase ⟨F.fin (Real.sqrt 2), F.fin 0, F.fin 0⟩ = F.fin 90 := by
      show ((CordinateVec.azimuth ⟨F.fin (Real.sqrt 2), F.fin 0, F.fin 0⟩
        ).toDegrees).add (F.fin 90) = F.fin 90
      rw [haz, F.toDegrees_fin, F.add_fin_fin, F.fin_inj, zero_mul, zero_add]
    have hdst : CordinateVec.dst ⟨F.fin (Real.sqrt 2), F.fin 0, F.fin 0⟩
        = F.fin (Real.sqrt 2) := by
      rw [CordinateVec.dst_fin, F.fin_inj,
        show Real.sqrt 2 * Real.sqrt 2 + 0 * 0 + 0 * 0 = 2 by rw [hss]; ring]
    have hfd : CordinateVec.f_dst ⟨F.fin (Real.sqrt 2), F.fin 0, F.fin 0⟩
        = F.fin (Real.sqrt 2) := by
      rw [CordinateVec.f_dst_fin, F.fin_inj,
        show Real.sqrt 2 * Real.sqrt 2 + 0 * 0 = 2 by rw [hss]; ring]
    have helbow : ikElbow ⟨F.fin (Real.sqrt 2), F.fin 0, F.fin 0⟩
        (F.fin 1) (F.fin 1) = F.fin 90 := by
      show (a_from_lengths (F.fin 1) (F.fin 1)
        (CordinateVec.dst ⟨F.fin (Real.sqrt 2), F.fin 0, F.fin 0⟩)).toDegrees
          = F.fin 90
      rw [hdst]
      unfold a_from_lengths
      simp only [F.mul_fin_fin, F.neg_fin, F.add_fin_fin]
      rw [F.div_fin_fin _ (by norm_num : (2 : ℝ) * 1 * 1 ≠ 0),
        show (-(Real.sqrt 2 * Real.sqrt 2) + 1 * 1 + 1 * 1) / (2 * 1 * 1) = 0 by
          rw [hss]; norm_num,
        F.acos_fin (by norm_num) (by norm_num), Real.arccos_zero,
        F.toDegrees_fin, F.fin_inj]
      field_simp
      ring
    have hshoulder : ikShoulder ⟨F.fin (Real.sqrt 2), F.fin 0, F.fin 0⟩
        (F.fin 1) (F.fin 1) = F.fin 45 := by
      have hA : ((CordinateVec.to_sphere ⟨F.fin (Real.sqrt 2), F.fin 0,
          F.fin 0⟩).flat_distance.div (F.fin 0)).atan = F.fin (π / 2) := by
        show ((CordinateVec.f_dst ⟨F.fin (Real.sqrt 2), F.fin 0, F.fin 0⟩
          ).div (F.fin 0)).atan = F.fin (π / 2)
        rw [hfd, F.div_fin_zero_pos h2pos, F.atan_pinf]
      have hB : a_from_lengths (CordinateVec.to_sphere ⟨F.fin (Real.sqrt 2),
          F.fin 0, F.fin 0⟩).distance (F.fin 1) (F.fin 1) = F.fin (π / 4) := by
        show a_from_lengths (CordinateVec.dst ⟨F.fin (Real.sqrt 2), F.fin 0,
          F.fin 0⟩) (F.fin 1) (F.fin 1) = F.fin (π / 4)
        rw [hdst]
        unfold a_from_lengths
        simp only [F.mul_fin_fin, F.neg_fin, F.add_fin_fin]
        rw [F.div_fin_fin _ (by positivity : (2 : ℝ) * Real.sqrt 2 * 1 ≠ 0),
          show (-(1 * 1) + Real.sqrt 2 * Real.sqrt 2 + 1 * 1)
              / (2 * Real.sqrt 2 * 1) = Real.sqrt 2 / 2 by
            rw [hss]
            rw [div_eq_div_iff (by positivity) (by norm_num)]
            nlinarith [hss]]
        rw [F.acos_fin (by nlinarith [Real.sqrt_nonneg 2])
          (by nlinarith [hss, Real.sqrt_nonneg 2]),
          show Real.sqrt 2 / 2 = Real.cos (π / 4) from Real.cos_pi_div_four.symm,
          Real.arccos_cos (by positivity) (by linarith)]
      simp only [ikShoulder]
      rw [hA, hB, F.add_fin_fin,
        if_pos (show F.Lt (F.fin (π / 2)) (F.fin (π / 2 + π / 4)) from
          (F.Lt_fin_fin _ _).mpr (by linarith)),
        F.sub_fin_fin, F.sub_fin_fin, F.toDegrees_fin, F.fin_inj]
      field_simp
      ring
    simp only [CordinateVec.inverse_kinematics, hbase, hshoulder, helbow,
      F.isNan_fin, Bool.or_self, Bool.or_false]
    rfl
  · intro v ua la r hok
    simp only [CordinateVec.inverse_kinematics] at hok
    split_ifs at hok with h
    injection hok with hinj
    rw [← hinj]
    show (ikBase v, ikShoulder v ua la, ikElbow v ua la) = ik_spec_angles v ua la
    simp only [ik_spec_angles]
    rw [Prod.mk.injEq, Prod.mk.injEq]
    refine ⟨rfl, ?_, rfl⟩
    exact shoulder_deg_reflect (((v.to_sphere.flat_distance).div v.z).atan)
      (a_from_lengths v.to_sphere.distance la ua) (F.notInf_atan _)
      (notInf_a_from_lengths _ _ _)

/-- Witness for C6: the spec-formula angles at (sqrt 2, 0, 0) with unit
arms are also exactly (90, 45, 90) degrees. -/
theorem C6_inverse_kinematics_witness :
    ik_spec_angles ⟨F.fin (Real.sqrt 2), F.fin 0, F.fin 0⟩ (F.fin 1) (F.fin 1)
      = (F.fin 90, F.fin 45, F.fin 90) :=
  ((C6_inverse_kinematics.2 _ _ _ _ C6_inverse_kinematics.1)).symm

/-- C8: when `inverse_kinematics` fails, `Robot::update_ik` leaves the
whole robot state unchanged (the Rust code only prints a warning); when
it succeeds, it overwrites exactly the base, shoulder and elbow joint
angles and nothing else — in particular the claw joint, the joint
limits and motions, and the rest of the robot are untouched. -/
theorem C8_update_ik_frame (r : Robot) :
    (r.update_ik.arm.claw = r.arm.claw) ∧
    (r.position.inverse_kinematics r.upper_arm r.lower_arm = .error () →
      r.update_ik = r) ∧
    (∀ b s e : F,
      r.position.inverse_kinematics r.upper_arm r.lower_arm = .ok (b, s, e) →
        r.update_ik.arm.base.angle = b ∧
        r.update_ik.arm.shoulder.angle = s ∧
        r.update_ik.arm.elbow.angle = e ∧
        r.update_ik.arm.base.min = r.arm.base.min ∧
        r.update_ik.arm.base.max = r.arm.base.max ∧
        r.update_ik.arm.base.motion = r.arm.base.motion ∧
        r.update_ik.arm.shoulder.min = r.arm.shoulder.min ∧
        r.update_ik.arm.shoulder.max = r.arm.shoulder.max ∧
        r.update_ik.arm.shoulder.motion = r.arm.shoulder.motion ∧
        r.update_ik.arm.elbow.min = r.arm.elbow.min ∧
        r.update_ik.arm.elbow.max = r.arm.elbow.max ∧
        r.update_ik.arm.elbow.motion = r.arm.elbow.motion ∧
        r.update_ik.position = r.position ∧
        r.update_ik.velocity = r.velocity ∧
        r.update_ik.target_position = r.target_position) := by
  cases hik : r.position.inverse_kinematics r.upper_arm r.lower_arm with
  | error u =>
    cases u
    have hre : r.update_ik = r := by
      unfold Robot.update_ik
      rw [hik]
    rw [hre]
    refine ⟨rfl, fun _ => rfl, fun b s e hok => ?_⟩
    simp at hok
  | ok angles =>
    obtain ⟨b0, s0, e0⟩ := angles
    have hre : r.update_ik = { r with arm := { r.arm with
        base := { r.arm.base with angle := b0 },
        shoulder := { r.arm.shoulder with angle := s0 },
        elbow := { r.arm.elbow with angle := e0 } } } := by
      unfold Robot.update_ik
      rw [hik]
    rw [hre]
    refine ⟨rfl, fun habs => ?_, fun b s e hok => ?_⟩
    · simp at habs
    · injection hok with h2
      rw [Prod.mk.injEq, Prod.mk.injEq] at h2
      obtain ⟨h2b, h2s, h2e⟩ := h2
      subst h2b; subst h2s; subst h2e
      exact ⟨rfl, rfl, rfl, rfl, rfl, rfl, rfl, rfl, rfl, rfl, rfl, rfl,
        rfl, rfl, rfl⟩

/-- C4 counterexample: at rest (speed 0) at distance 0.02 from the
target, both of the claim's conditions hold (0.02 < 0.04 and
0 < acceleration * dt = 10), yet one planner step does not snap: the
state is outside the braking region (0.02 > 0 = speed^2/(2*acceleration)),
so the accelerate branch runs and `target_position` is kept. -/
theorem C4_arrival_counterexample :
    ((⟨F.fin 0.02, F.fin 0, F.fin 0⟩ : CordinateVec).sub
      ⟨F.fin 0, F.fin 0, F.fin 0⟩).dst = F.fin 0.02 ∧
    (⟨F.fin 0, F.fin 0, F.fin 0⟩ : CordinateVec).dst = F.fin 0 ∧
    F.Lt (F.fin 0.02) (F.fin 0.04) ∧
    F.Lt (F.fin 0) ((F.fin 100).mul (F.fin 0.1)) ∧
    (Full.goto_target
        ⟨⟨F.fin 0, F.fin 0, F.fin 0⟩, ⟨F.fin 0, F.fin 0, F.fin 0⟩,
          ⟨F.fin 0, F.fin 0, F.fin 0⟩, ⟨F.fin 0, F.fin 0, F.fin 0⟩,
          some ⟨F.fin 0.02, F.fin 0, F.fin 0⟩⟩
        (F.fin 0.1) (F.fin 100) ⟨F.fin 0.02, F.fin 0, F.fin 0⟩).target_position
      = some ⟨F.fin 0.02, F.fin 0, F.fin 0⟩ ∧
    some (⟨F.fin 0.02, F.fin 0, F.fin 0⟩ : CordinateVec) ≠ none := by
  have hd : ((⟨F.fin 0.02, F.fin 0, F.fin 0⟩ : CordinateVec).sub
      ⟨F.fin 0, F.fin 0, F.fin 0⟩).dst = F.fin 0.02 := by
    show CordinateVec.dst ⟨(F.fin 0.02).sub (F.fin 0), (F.fin 0).sub (F.fin 0),
      (F.fin 0).sub (F.fin 0)⟩ = F.fin 0.02
    simp only [F.sub_fin_fin]
    rw [CordinateVec.dst_fin, F.fin_inj,
      show ((0.02 : ℝ) - 0) * ((0.02 : ℝ) - 0) + (0 - 0) * (0 - 0)
          + (0 - 0) * (0 - 0) = 0.02 ^ 2 by norm_num,
      Real.sqrt_sq (by norm_num)]
  have hv : (⟨F.fin 0, F.fin 0, F.fin 0⟩ : CordinateVec).dst = F.fin 0 := by
    rw [CordinateVec.dst_fin, F.fin_inj,
      show (0 : ℝ) * 0 + 0 * 0 + 0 * 0 = 0 by norm_num, Real.sqrt_zero]
  refine ⟨hd, hv, (F.Lt_fin_fin _ _).mpr (by norm_num), ?_, ?_, by simp⟩
  · rw [F.mul_fin_fin]
    exact (F.Lt_fin_fin _ _).mpr (by norm_num)
  · simp only [Full.goto_target]
    rw [hd, hv, F.pow2_fin, F.mul_fin_fin,
      F.div_fin_fin _ (by norm_num : (2 : ℝ) * 100 ≠ 0),
      if_pos ((F.Lt_fin_fin _ _).mpr (by norm_num :
        (0 : ℝ) * 0 / (2 * 100) < 0.02))]

/-- C4 as amended: the snap to the target additionally requires being
inside the braking region (distance at most speed^2 / (2 * acceleration),
i.e. not in the accelerate branch); under the three conditions one
planner step sets the position to the target exactly, zeroes velocity
and target_velocity, and clears target_position. -/
theorem C4_arrival_amended (s : Full) (T A D V : ℝ) (tgt : CordinateVec)
    (hV : s.velocity.dst = F.fin V)
    (hD : (tgt.sub s.position).dst = F.fin D)
    (hA : 0 < A)
    (hbrake : D ≤ V * V / (2 * A))
    (hnear : D < 0.04)
    (hslow : V < A * T) :
    Full.goto_target s (F.fin T) (F.fin A) tgt =
      { s with position := tgt,
               velocity := ⟨F.fin 0, F.fin 0, F.fin 0⟩,
               target_velocity := ⟨F.fin 0, F.fin 0, F.fin 0⟩,
               target_position := none } := by
  simp only [Full.goto_target]
  rw [hD, hV, F.pow2_fin, F.mul_fin_fin,
    F.div_fin_fin _ (by positivity : (2 : ℝ) * A ≠ 0),
    if_neg (fun hlt => absurd ((F.Lt_fin_fin _ _).mp hlt) (not_lt.mpr hbrake)),
    F.mul_fin_fin,
    if_pos ⟨(F.Lt_fin_fin _ _).mpr hnear, (F.Lt_fin_fin _ _).mpr hslow⟩]

/-- Witness for C4 as amended: speed 2 at distance 0.02 with
acceleration 100 and dt 0.1 satisfies all three conditions
(0.02 <= 4/200, 0.02 < 0.04, 2 < 10) and the step snaps. -/
theorem C4_arrival_amended_witness :
    Full.goto_target
      ⟨⟨F.fin 0, F.fin 0, F.fin 0⟩, ⟨F.fin 2, F.fin 0, F.fin 0⟩,
        ⟨F.fin 0, F.fin 0, F.fin 0⟩, ⟨F.fin 0, F.fin 0, F.fin 0⟩,
        some ⟨F.fin 0.02, F.fin 0, F.fin 0⟩⟩
      (F.fin 0.1) (F.fin 100) ⟨F.fin 0.02, F.fin 0, F.fin 0⟩ =
      { position := ⟨F.fin 0.02, F.fin 0, F.fin 0⟩,
        velocity := ⟨F.fin 0, F.fin 0, F.fin 0⟩,
        target_velocity := ⟨F.fin 0, F.fin 0, F.fin 0⟩,
        max_velocity := ⟨F.fin 0, F.fin 0, F.fin 0⟩,
        target_position := none } := by
  have hV : (⟨F.fin 2, F.fin 0, F.fin 0⟩ : CordinateVec).dst = F.fin 2 := by
    rw [CordinateVec.dst_fin, F.fin_inj,
      show (2 : ℝ) * 2 + 0 * 0 + 0 * 0 = 2 ^ 2 by norm_num,
      Real.sqrt_sq (by norm_num)]
  have hD : ((⟨F.fin 0.02, F.fin 0, F.fin 0⟩ : CordinateVec).sub
      ⟨F.fin 0, F.fin 0, F.fin 0⟩).dst = F.fin 0.02 := by
    show CordinateVec.dst ⟨(F.fin 0.02).sub (F.fin 0), (F.fin 0).sub (F.fin 0),
      (F.fin 0).sub (F.fin 0)⟩ = F.fin 0.02
    simp only [F.sub_fin_fin]
    rw [CordinateVec.dst_fin, F.fin_inj,
      show ((0.02 : ℝ) - 0) * ((0.02 : ℝ) - 0) + (0 - 0) * (0 - 0)
          + (0 - 0) * (0 - 0) = 0.02 ^ 2 by norm_num,
      Real.sqrt_sq (by norm_num)]
  exact C4_arrival_amended _ 0.1 100 0.02 2 _ hV hD (by norm_num)
    (by norm_num) (by norm_num) (by norm_num)

/-- Evaluation of `Robot::update_position` for a robot resting at
(0, 0, 3) with unit arms: the clamp produces (NaN, NaN, 2). -/
theorem update_position_axis_nan :
    (({ position := ⟨F.fin 0, F.fin 0, F.fin 3⟩, target_position := none,
        velocity := ⟨F.fin 0, F.fin 0, F.fin 0⟩,
        max_velocity := ⟨F.fin 0, F.fin 0, F.fin 0⟩,
        target_velocity := ⟨F.fin 0, F.fin 0, F.fin 0⟩,
        acceleration := F.fin 10, arm := Arm.default,
        upper_arm := F.fin 1, lower_arm := F.fin 1,
        claw_open := false } : Robot).update_position (F.fin 1)).position
      = ⟨F.nan, F.nan, F.fin 2⟩ := by
  have hint : CordinateVec.add ⟨F.fin 0, F.fin 0, F.fin 3⟩
      (CordinateVec.smul ⟨F.fin 0, F.fin 0, F.fin 0⟩ (F.fin 1))
      = ⟨F.fin 0, F.fin 0, F.fin 3⟩ := by
    simp only [CordinateVec.add, CordinateVec.smul, F.mul_fin_fin, F.add_fin_fin,
      CordinateVec.mk.injEq, F.fin_inj]
    norm_num
  have hsph : CordinateVec.to_sphere ⟨F.fin 0, F.fin 0, F.fin 3⟩
      = ⟨F.nan, F.fin 0, F.fin 3, F.fin 0⟩ := by
    unfold CordinateVec.to_sphere
    rw [SphereVec.mk.injEq]
    refine ⟨CordinateVec.azimuth_zero_zero _, ?_, ?_, ?_⟩
    · rw [CordinateVec.polar_pos 0 0 (by norm_num : (0 : ℝ) < 3), F.fin_inj,
        show (0 : ℝ) * 0 + 0 * 0 = 0 by norm_num, Real.sqrt_zero, zero_div,
        Real.arctan_zero]
    · rw [CordinateVec.dst_fin, F.fin_inj,
        show (0 : ℝ) * 0 + 0 * 0 + 3 * 3 = 3 ^ 2 by norm_num,
        Real.sqrt_sq (by norm_num)]
    · rw [CordinateVec.f_dst_fin, F.fin_inj,
        show (0 : ℝ) * 0 + 0 * 0 = 0 by norm_num, Real.sqrt_zero]
  simp only [Robot.update_position]
  rw [hint, hsph]
  rw [F.add_fin_fin, if_pos ((F.Le_fin_fin _ _).mpr (by norm_num))]
  show ((SphereVec.update_dst ⟨F.nan, F.fin 0, F.fin 3, F.fin 0⟩
    (F.fin (1 + 1))).to_position) = ⟨F.nan, F.nan, F.fin 2⟩
  unfold SphereVec.update_dst SphereVec.to_position
  simp only [F.sin_fin, F.cos_nan, F.sin_nan, F.cos_fin, F.mul_fin_fin,
    F.mul_nan_right, CordinateVec.mk.injEq, F.fin_inj]
  rw [Real.cos_zero]
  norm_num

/-- C5: the workspace clamp does not always land on the boundary sphere.
For a robot resting on the polar axis at (0, 0, 3) with
upper_arm + lower_arm = 2, the update integrates to (0, 0, 3), whose
azimuth is `atan(0/0) = NaN` (see C3); the clamp then rebuilds the
position as (0 * cos NaN, 0 * sin NaN, 2 * cos 0) = (NaN, NaN, 2), whose
distance is NaN — not the claimed exact boundary distance 2. -/
theorem C5_workspace_clamp_nan_bug :
    (({ position := ⟨F.fin 0, F.fin 0, F.fin 3⟩, target_position := none,
        velocity := ⟨F.fin 0, F.fin 0, F.fin 0⟩,
        max_velocity := ⟨F.fin 0, F.fin 0, F.fin 0⟩,
        target_velocity := ⟨F.fin 0, F.fin 0, F.fin 0⟩,
        acceleration := F.fin 10, arm := Arm.default,
        upper_arm := F.fin 1, lower_arm := F.fin 1,
        claw_open := false } : Robot).update_position (F.fin 1)).position
      = ⟨F.nan, F.nan, F.fin 2⟩ ∧
    (({ position := ⟨F.fin 0, F.fin 0, F.fin 3⟩, target_position := none,
        velocity := ⟨F.fin 0, F.fin 0, F.fin 0⟩,
        max_velocity := ⟨F.fin 0, F.fin 0, F.fin 0⟩,
        target_velocity := ⟨F.fin 0, F.fin 0, F.fin 0⟩,
        acceleration := F.fin 10, arm := Arm.default,
        upper_arm := F.fin 1, lower_arm := F.fin 1,
        claw_open := false } : Robot).update_position (F.fin 1)).position.dst
      = F.nan ∧
    F.nan ≠ (F.fin 1).add (F.fin 1) := by
  refine ⟨update_position_axis_nan, ?_, ?_⟩
  · rw [update_position_axis_nan]
    show (((F.nan.pow2).add (F.nan.pow2)).add ((F.fin 2).pow2)).sqrt = F.nan
    rw [F.pow2_nan, F.add_nan_left, F.add_nan_left, F.sqrt_nan]
  · rw [F.add_fin_fin]
    simp
